import Mathlib

/-!
# Verification of the scene-file utilities

Shallow embedding of the two command-line tools of this repository:
* `cleanup_colliders.py` (Collider Cleaner), and
* `MD/OLD MD/expand_tilemap.py` (Tile Expander).

Both tools perform a single read-modify-write pass over a JSON scene
document.  JSON values are embedded as `JVal`; Python dictionaries loaded
from JSON are association lists with unique keys in insertion order, Python
lists are Lean lists.  Places where the Python code would raise an uncaught
exception (index errors, attribute errors, `%` by zero) are modelled by
`Option.none`: an uncaught exception aborts the process before any write.
Data loaded by `json.load` contains no aliasing, so in-place mutation of a
nested dict is modelled by rebuilding the enclosing document with the
mutated entry replaced.
-/

/-- A JSON value as produced by Python's `json.load`: numbers (only
integers occur in the scene files handled here), strings, booleans, null,
arrays, and objects (dicts, kept as ordered association lists). -/
inductive JVal where
  | num : Int → JVal
  | str : String → JVal
  | bool : Bool → JVal
  | null : JVal
  | list : List JVal → JVal
  | obj : List (String × JVal) → JVal

mutual

/-- Decidable structural (value) equality of JSON values, Python's `==`
on JSON-loaded data. -/
def JVal.decEq : (a b : JVal) → Decidable (a = b)
  | .num a, .num b =>
      match Int.decEq a b with
      | isTrue h => isTrue (congrArg JVal.num h)
      | isFalse h => isFalse (fun hh => h (JVal.num.inj hh))
  | .str a, .str b =>
      match String.decEq a b with
      | isTrue h => isTrue (congrArg JVal.str h)
      | isFalse h => isFalse (fun hh => h (JVal.str.inj hh))
  | .bool a, .bool b =>
      match Bool.decEq a b with
      | isTrue h => isTrue (congrArg JVal.bool h)
      | isFalse h => isFalse (fun hh => h (JVal.bool.inj hh))
  | .null, .null => isTrue rfl
  | .list a, .list b =>
      match JVal.decEqList a b with
      | isTrue h => isTrue (congrArg JVal.list h)
      | isFalse h => isFalse (fun hh => h (JVal.list.inj hh))
  | .obj a, .obj b =>
      match JVal.decEqObj a b with
      | isTrue h => isTrue (congrArg JVal.obj h)
      | isFalse h => isFalse (fun hh => h (JVal.obj.inj hh))
  | .num _, .str _ => isFalse (fun h => JVal.noConfusion h)
  | .num _, .bool _ => isFalse (fun h => JVal.noConfusion h)
  | .num _, .null => isFalse (fun h => JVal.noConfusion h)
  | .num _, .list _ => isFalse (fun h => JVal.noConfusion h)
  | .num _, .obj _ => isFalse (fun h => JVal.noConfusion h)
  | .str _, .num _ => isFalse (fun h => JVal.noConfusion h)
  | .str _, .bool _ => isFalse (fun h => JVal.noConfusion h)
  | .str _, .null => isFalse (fun h => JVal.noConfusion h)
  | .str _, .list _ => isFalse (fun h => JVal.noConfusion h)
  | .str _, .obj _ => isFalse (fun h => JVal.noConfusion h)
  | .bool _, .num _ => isFalse (fun h => JVal.noConfusion h)
  | .bool _, .str _ => isFalse (fun h => JVal.noConfusion h)
  | .bool _, .null => isFalse (fun h => JVal.noConfusion h)
  | .bool _, .list _ => isFalse (fun h => JVal.noConfusion h)
  | .bool _, .obj _ => isFalse (fun h => JVal.noConfusion h)
  | .null, .num _ => isFalse (fun h => JVal.noConfusion h)
  | .null, .str _ => isFalse (fun h => JVal.noConfusion h)
  | .null, .bool _ => isFalse (fun h => JVal.noConfusion h)
  | .null, .list _ => isFalse (fun h => JVal.noConfusion h)
  | .null, .obj _ => isFalse (fun h => JVal.noConfusion h)
  | .list _, .num _ => isFalse (fun h => JVal.noConfusion h)
  | .list _, .str _ => isFalse (fun h => JVal.noConfusion h)
  | .list _, .bool _ => isFalse (fun h => JVal.noConfusion h)
  | .list _, .null => isFalse (fun h => JVal.noConfusion h)
  | .list _, .obj _ => isFalse (fun h => JVal.noConfusion h)
  | .obj _, .num _ => isFalse (fun h => JVal.noConfusion h)
  | .obj _, .str _ => isFalse (fun h => JVal.noConfusion h)
  | .obj _, .bool _ => isFalse (fun h => JVal.noConfusion h)
  | .obj _, .null => isFalse (fun h => JVal.noConfusion h)
  | .obj _, .list _ => isFalse (fun h => JVal.noConfusion h)

/-- Decidable elementwise equality of JSON arrays. -/
def JVal.decEqList : (a b : List JVal) → Decidable (a = b)
  | [], [] => isTrue rfl
  | [], _ :: _ => isFalse (fun h => List.noConfusion h)
  | _ :: _, [] => isFalse (fun h => List.noConfusion h)
  | x :: xs, y :: ys =>
      match JVal.decEq x y, JVal.decEqList xs ys with
      | isTrue h1, isTrue h2 => isTrue (by rw [h1, h2])
      | isFalse h1, _ => isFalse (fun hh => h1 (by cases hh; rfl))
      | _, isFalse h2 => isFalse (fun hh => h2 (by cases hh; rfl))

/-- Decidable entrywise equality of JSON objects. -/
def JVal.decEqObj : (a b : List (String × JVal)) → Decidable (a = b)
  | [], [] => isTrue rfl
  | [], _ :: _ => isFalse (fun h => List.noConfusion h)
  | _ :: _, [] => isFalse (fun h => List.noConfusion h)
  | (k1, v1) :: xs, (k2, v2) :: ys =>
      match String.decEq k1 k2, JVal.decEq v1 v2, JVal.decEqObj xs ys with
      | isTrue h1, isTrue h2, isTrue h3 => isTrue (by rw [h1, h2, h3])
      | isFalse h1, _, _ => isFalse (fun hh => h1 (by cases hh; rfl))
      | _, isFalse h2, _ => isFalse (fun hh => h2 (by cases hh; rfl))
      | _, _, isFalse h3 => isFalse (fun hh => h3 (by cases hh; rfl))

end

instance : DecidableEq JVal := JVal.decEq

/-- `d[k]` / `k in d` lookup in a dict represented as an association list
(first match; a dict loaded from JSON has unique keys). -/
def dictGet (d : List (String × JVal)) (k : String) : Option JVal :=
  match d with
  | [] => none
  | kv :: rest => if kv.1 = k then some kv.2 else dictGet rest k

/-- Python truthiness of a JSON-derived value, as used in `if not x:`. -/
def pyTruthy : JVal → Bool
  | .num n => decide (n ≠ 0)
  | .str s => decide (s.data ≠ [])
  | .bool b => b
  | .null => false
  | .list l => decide (l ≠ [])
  | .obj o => decide (o ≠ [])

/-! ## Collider Cleaner (`cleanup_colliders.py`) -/

/-- `s.startswith(p)` on explicit character lists. -/
def strStartsWith : List Char → List Char → Bool
  | _, [] => true
  | [], _ :: _ => false
  | c :: cs, p :: ps => c == p && strStartsWith cs ps

/-- The name test of `cleanup_scene_colliders` (source lines 28-30):
`entity_name.startswith('CompositeCollider') or entity_name.startswith('Collider_')`. -/
def isColliderName (n : String) : Bool :=
  strStartsWith n.data "CompositeCollider".data || strStartsWith n.data "Collider_".data

/-- The `scene_data['names']` list walked by the detection loop.  When the
key is absent the loop body never runs (`if 'names' in scene_data:`), which
is modelled by the empty list; a non-list value is not modelled. -/
def namesOf (scene : List (String × JVal)) : Option (List JVal) :=
  match dictGet scene "names" with
  | none => some []
  | some (.list es) => some es
  | some _ => none

/-- The detection loop (source lines 21-31): for each `name_entry`, read
`name_entry[0]` (entity id) and `name_entry[1]` (name), and collect the id
when the name matches.  Entries on which the Python code would raise
(too-short lists, non-string names, non-list entries) yield `none`.
Python collects the ids into a set; a list with the same members is kept,
only membership is ever used. -/
def colliderIdsOf : List JVal → Option (List JVal)
  | [] => some []
  | .list (i :: .str n :: _) :: rest => do
      let r ← colliderIdsOf rest
      pure (if isColliderName n then i :: r else r)
  | _ :: _ => none

/-- The per-entry filter decision (source lines 48-56): a list entry with
at least one element is kept iff its first element is not in the identified
set; anything else is kept unconditionally. -/
def keepEntry (ids : List JVal) (e : JVal) : Bool :=
  match e with
  | .list (i :: _) => decide (i ∉ ids)
  | _ => true

/-- One top-level section after the removal pass (source lines 43-62):
list-valued sections are filtered entrywise, any other value is left
untouched (the `isinstance(section_data, list)` guard). -/
def filterSection (ids : List JVal) : JVal → JVal
  | .list entries => .list (entries.filter (keepEntry ids))
  | v => v

/-- Observable result of `cleanup_scene_colliders`: either the early
return with no file touched, or the pair of documents dumped to the
`.json.backup` sibling and to the scene path, in that order. -/
inductive CleanOutcome where
  | noChange
  | written (backup cleaned : List (String × JVal))

instance : DecidableEq CleanOutcome := fun a b => by
  cases a <;> cases b <;> first
    | exact .isTrue rfl
    | exact decidable_of_iff _ (Iff.of_eq (CleanOutcome.written.injEq ..).symm)
    | exact .isFalse (fun h => by cases h)

/-- `cleanup_scene_colliders` (source lines 11-76).  The removal pass
reassigns `scene_data[section_name]` in place (lines 43-62); the backup
dump (lines 64-68) and the scene dump (lines 70-72) both happen after
that mutation and therefore serialize the same, already-filtered,
document. -/
def cleanup_scene_colliders (scene : List (String × JVal)) : Option CleanOutcome :=
  match namesOf scene with
  | none => none
  | some names =>
    match colliderIdsOf names with
    | none => none
    | some ids =>
      if ids.isEmpty then some CleanOutcome.noChange
      else
        some (CleanOutcome.written
          (scene.map (fun kv => (kv.1, filterSection ids kv.2)))
          (scene.map (fun kv => (kv.1, filterSection ids kv.2))))

/-- Whitespace as stripped by Python's `str.strip()` (ASCII range; the
prompts handled here are ASCII). -/
def pyIsSpace (c : Char) : Bool :=
  c == ' ' || c == '\t' || c == '\n' || c == '\r' || c == '\x0b' || c == '\x0c'

/-- `s.strip()`. -/
def pyStrip (s : List Char) : List Char :=
  ((s.dropWhile pyIsSpace).reverse.dropWhile pyIsSpace).reverse

/-- `str.lower()` on one ASCII character. -/
def pyLowerChar (c : Char) : Char :=
  if 'A' ≤ c ∧ c ≤ 'Z' then Char.ofNat (c.toNat + 32) else c

/-- `s.lower()`. -/
def pyLower (s : List Char) : List Char := s.map pyLowerChar

/-- The confirmation test of `main` (source lines 149-151):
`input(...).strip().lower() in ['y', 'yes']`. -/
def confirmed (response : List Char) : Bool :=
  decide (pyLower (pyStrip response) = "y".data) ||
  decide (pyLower (pyStrip response) = "yes".data)

/-- Observable result of `main` after the argument checks: the operator
declined (prints `Cleanup cancelled.`, no cleanup call), or
`cleanup_scene_colliders` ran with the given outcome.  Both branches fall
through the end of `main`, so the process exit status is 0 either way. -/
inductive MainOutcome where
  | cancelled
  | ran (o : CleanOutcome)

instance : DecidableEq MainOutcome := fun a b => by
  cases a <;> cases b <;> first
    | exact .isTrue rfl
    | exact decidable_of_iff _ (Iff.of_eq (MainOutcome.ran.injEq ..).symm)
    | exact .isFalse (fun h => by cases h)

/-- The confirmation branch of `main` (source lines 148-158). -/
def cleanupMain (scene : List (String × JVal)) (response : List Char) :
    Option MainOutcome :=
  if confirmed response then (cleanup_scene_colliders scene).map MainOutcome.ran
  else pure MainOutcome.cancelled

/-- Process exit status of the cleaner's `main` past the argument checks:
no `sys.exit` is reached on either branch, so a run that does not raise
exits with status 0. -/
def cleanupMainExit (scene : List (String × JVal)) (response : List Char) :
    Option Nat :=
  (cleanupMain scene response).map (fun _ => 0)

/-! ## Tile Expander (`MD/OLD MD/expand_tilemap.py`) -/

/-- Why `expand_tilemap` returned `False` (printed message). -/
inductive ExpandError where
  | notFound
  | countMismatch (expected found : Nat)

instance : DecidableEq ExpandError := fun a b => by
  cases a <;> cases b <;> first
    | exact .isTrue rfl
    | exact decidable_of_iff _ (Iff.of_eq (ExpandError.countMismatch.injEq ..).symm)
    | exact .isFalse (fun h => by cases h)

/-- Observable result of `expand_tilemap`: `failure e` is a `return False`
before any write (the scene file is untouched), `success out` means `out`
was serialized back to the scene path and `True` returned. -/
inductive ExpandOutcome where
  | failure (e : ExpandError)
  | success (out : List (String × JVal))

instance : DecidableEq ExpandOutcome := fun a b => by
  cases a <;> cases b <;> first
    | exact decidable_of_iff _ (Iff.of_eq (ExpandOutcome.failure.injEq ..).symm)
    | exact decidable_of_iff _ (Iff.of_eq (ExpandOutcome.success.injEq ..).symm)
    | exact .isFalse (fun h => by cases h)

/-- `scene.get('tilemaps', [])` (source line 18): the section when present
(must be a list to be iterable as the loop expects), `[]` when absent. -/
def tilemapsOf (scene : List (String × JVal)) : Option (List JVal) :=
  match dictGet scene "tilemaps" with
  | none => some []
  | some (.list l) => some l
  | some _ => none

/-- The search loop (source lines 17-21): the first entry with
`tilemap_data[0] == 315` yields its position and `tilemap_data[1]`.
`some none` means the loop ended without a match (`tilemap_entity` stays
`None`).  An entry `[315]` reaches `tilemap_data[1]` and raises IndexError;
an empty or non-list entry raises at `tilemap_data[0]`: both are `none`. -/
def find315 : List JVal → Option (Option (Nat × JVal))
  | [] => some none
  | .list (i :: ent :: _) :: more =>
      if i = .num 315 then some (some (0, ent))
      else (find315 more).map (fun r => r.map (fun p => (p.1 + 1, p.2)))
  | .list [i] :: more =>
      if i = .num 315 then none
      else (find315 more).map (fun r => r.map (fun p => (p.1 + 1, p.2)))
  | _ :: _ => none

/-- `original_tile.copy()` (source line 45): dicts and lists expose
`.copy`, and the shallow copy of a JSON-loaded value equals the original
as a value; scalars have no `.copy` attribute and raise. -/
def pyCopy : JVal → Option JVal
  | .obj o => some (.obj o)
  | .list l => some (.list l)
  | _ => none

/-- One iteration of the copy loop body (source lines 37-45):
`orig_index = (y % old_height) * old_width + (x % old_width)` followed by
`existing_tiles[orig_index].copy()`.  `% 0` raises ZeroDivisionError and
an out-of-range index raises IndexError. -/
def newTileAt (tiles : List JVal) (ow oh x y : Nat) : Option JVal :=
  if ow = 0 ∨ oh = 0 then none
  else match tiles.get? ((y % oh) * ow + (x % ow)) with
    | some t => pyCopy t
    | none => none

/-- Option-valued elementwise map: `some` exactly when every element maps
to `some`, propagating the first failure (a raised exception). -/
def traverseOption {α β : Type} (f : α → Option β) : List α → Option (List β)
  | [] => some []
  | a :: as => do
      let b ← f a
      let bs ← traverseOption f as
      pure (b :: bs)

/-- The nested `for y in range(new_height): for x in range(new_width):`
loop (source lines 34-45) appends tiles in row-major order; flattened,
iteration `k` of the `nh * nw` body executions handles `x = k % nw`,
`y = k / nw`. -/
def buildNewTiles (tiles : List JVal) (ow oh nw nh : Nat) : Option (List JVal) :=
  traverseOption (fun k => newTileAt tiles ow oh (k % nw) (k / nw)) (List.range (nh * nw))

/-- Python dict assignment `d[k] = v`: replaces the value of an existing
key in place (keeping insertion order), otherwise appends the new pair. -/
def setField (d : List (String × JVal)) (k : String) (v : JVal) :
    List (String × JVal) :=
  if d.any (fun kv => decide (kv.1 = k)) then
    d.map (fun kv => if kv.1 = k then (k, v) else kv)
  else d ++ [(k, v)]

/-- Effect, on the `tilemaps` list, of mutating the found entity dict in
place (source lines 48-50): the first entry whose first element is `315`
has its second element replaced; everything else is shared unchanged. -/
def update315 (ent2 : JVal) : List JVal → List JVal
  | [] => []
  | .list (i :: ent :: rest) :: more =>
      if i = .num 315 then .list (i :: ent2 :: rest) :: more
      else .list (i :: ent :: rest) :: update315 ent2 more
  | e :: more => e :: update315 ent2 more

/-- The body of `expand_tilemap` past the truthiness test (source lines
26-57): `tilemap_entity.get('tiles', [])` (line 28) requires a dict,
`len(existing_tiles)` (line 29) requires a list; on the success path the
entity dict is mutated in place (`tiles`, `width`, `height`) and the whole
document is written back. -/
def expandWithEntity (scene : List (String × JVal)) (ow oh nw nh : Nat)
    (tms : List JVal) : JVal → Option ExpandOutcome
  | .obj entF =>
    match (dictGet entF "tiles").getD (.list []) with
    | .list tiles =>
      if tiles.length ≠ ow * oh then
        some (ExpandOutcome.failure (.countMismatch (ow * oh) tiles.length))
      else
        match buildNewTiles tiles ow oh nw nh with
        | none => none
        | some nt =>
          some (ExpandOutcome.success (scene.map (fun kv =>
            if kv.1 = "tilemaps"
            then (kv.1, .list (update315 (.obj (setField (setField (setField
              entF "tiles" (.list nt)) "width" (.num nw)) "height"
              (.num nh))) tms))
            else kv)))
    | _ => none
  | _ => none

/-- `expand_tilemap(scene_file, old_width, old_height, new_width,
new_height)` (source lines 9-59), from the parsed document to the
observable outcome.  The `if not tilemap_entity:` test (line 23) uses
truthiness; the work past that test (reading `tiles` via `.get`, which
requires a dict, the length check, the copy loop, and the in-place update)
is `expandWithEntity`. -/
def expand_tilemap (scene : List (String × JVal)) (ow oh nw nh : Nat) :
    Option ExpandOutcome :=
  match tilemapsOf scene with
  | none => none
  | some tms =>
    match find315 tms with
    | none => none
    | some none => some (ExpandOutcome.failure .notFound)
    | some (some (_, ent)) =>
      if pyTruthy ent = false then some (ExpandOutcome.failure .notFound)
      else expandWithEntity scene ow oh nw nh tms ent

/-- The `__main__` block (source lines 61-68): `expand_tilemap` runs with
the default dimensions 10×10 → 20×20 on the hard-coded path; `False`
leads to `sys.exit(1)`, `True` falls through with exit status 0. -/
def expanderMainExit (scene : List (String × JVal)) : Option Nat :=
  (expand_tilemap scene 10 10 20 20).map (fun o =>
    match o with
    | .success _ => 0
    | .failure _ => 1)

/-- A `tilemaps` entry the search loop can step over without raising:
a non-empty list (so `tilemap_data[0]` is defined). -/
def wfTilemapEntry (e : JVal) : Bool :=
  match e with
  | .list (_ :: _) => true
  | _ => false

/-- Does a `tilemaps` entry carry entity id 315? -/
def entryIs315 (e : JVal) : Bool :=
  match e with
  | .list (i :: _) => decide (i = JVal.num 315)
  | _ => false

/-- A `names` entry the detection loop can process without raising:
a list with at least two elements whose second element is a string. -/
def wfNameEntry (e : JVal) : Bool :=
  match e with
  | .list (_ :: .str _ :: _) => true
  | _ => false

/-- Does a `names` entry carry a collider-prefixed name? -/
def nameEntryCollider (e : JVal) : Bool :=
  match e with
  | .list (_ :: .str n :: _) => isColliderName n
  | _ => false

/-! ## Concrete scenes used as witness and counterexample inputs -/

/-- A one-tile tilemap record. -/
def tileA : JVal := .obj [("tile_id", .num 7)]

/-- A scene holding tilemap entity 315 with a 1×1 grid. -/
def sceneB : List (String × JVal) :=
  [("tilemaps", .list [.list [.num 315, .obj
      [("tiles", .list [tileA]), ("width", .num 1), ("height", .num 1)]]]),
   ("other", .num 3)]

/-- `sceneB` after expansion to a 2×2 grid. -/
def sceneBexpanded : List (String × JVal) :=
  [("tilemaps", .list [.list [.num 315, .obj
      [("tiles", .list [tileA, tileA, tileA, tileA]),
       ("width", .num 2), ("height", .num 2)]]]),
   ("other", .num 3)]

/-- The tile record used in the default-dimension round-trip scene. -/
def tileRT : JVal := .obj [("tile_id", .num 1)]

/-- A scene holding tilemap entity 315 with the default 10×10 grid
(100 tiles). -/
def sceneRT : List (String × JVal) :=
  [("tilemaps", .list [.list [.num 315, .obj
      [("tiles", .list (List.replicate 100 tileRT)),
       ("width", .num 10), ("height", .num 10)]]])]

/-- `sceneRT` after expansion to the default 20×20 grid (400 tiles). -/
def sceneRTexpanded : List (String × JVal) :=
  [("tilemaps", .list [.list [.num 315, .obj
      [("tiles", .list (List.replicate 400 tileRT)),
       ("width", .num 20), ("height", .num 20)]]])]

/-- A scene with one collider entity (id 1) named in `names` and
referenced from `physics`. -/
def sceneC1 : List (String × JVal) :=
  [("names", .list [.list [.num 1, .str "Collider_wall"],
                    .list [.num 2, .str "Player"]]),
   ("physics", .list [.list [.num 1, .obj [("body", .num 0)]],
                      .list [.num 2, .obj [("body", .num 1)]]])]

/-- `sceneC1` after the removal pass (entity 1 gone from every section). -/
def sceneC1cleaned : List (String × JVal) :=
  [("names", .list [.list [.num 2, .str "Player"]]),
   ("physics", .list [.list [.num 2, .obj [("body", .num 1)]]])]

/-- A scene whose only tilemap entry carries entity id 7, not 315. -/
def sceneC6a : List (String × JVal) :=
  [("tilemaps", .list [.list [.num 7, .obj [("tiles", .list [])]]])]

/-- A scene with no collider-prefixed names. -/
def sceneC7 : List (String × JVal) :=
  [("names", .list [.list [.num 2, .str "Player"]]),
   ("meta", .str "v1")]

/-- A scene whose tilemaps section has an entry with id 315 whose data
is the empty (falsy) mapping. -/
def sceneC10 : List (String × JVal) :=
  [("tilemaps", .list [.list [.num 315, .obj []]])]

/-! ## Helper lemmas -/

theorem pyCopy_eq {t t' : JVal} (h : pyCopy t = some t') : t' = t := by
  cases t <;> simp_all [pyCopy]

theorem traverseOption_spec {α β : Type} (f : α → Option β) :
    ∀ {l : List α} {r : List β}, traverseOption f l = some r →
      r.length = l.length ∧
      ∀ i, i < l.length → ∃ x, l.get? i = some x ∧ f x = r.get? i := by
  intro l
  induction l with
  | nil =>
      intro r h
      simp only [traverseOption] at h
      cases h
      exact ⟨rfl, by intro i hi; simp at hi⟩
  | cons a as ih =>
      intro r h
      simp only [traverseOption] at h
      cases hb : f a with
      | none => rw [hb] at h; simp at h
      | some b =>
          rw [hb] at h
          cases hbs : traverseOption f as with
          | none => rw [hbs] at h; simp at h
          | some bs =>
              rw [hbs] at h
              simp at h
              obtain ⟨hlen, hidx⟩ := ih hbs
              subst h
              refine ⟨by simp [hlen], ?_⟩
              intro i hi
              cases i with
              | zero => exact ⟨a, rfl, by simpa using hb⟩
              | succ i =>
                  obtain ⟨x, hx, hfx⟩ := hidx i (by simpa using hi)
                  exact ⟨x, by simpa using hx, by simpa using hfx⟩

theorem buildNewTiles_spec {tiles : List JVal} {ow oh nw nh : Nat} {nt : List JVal}
    (h : buildNewTiles tiles ow oh nw nh = some nt) :
    nt.length = nh * nw ∧
    ∀ x y, x < nw → y < nh →
      ∃ t, tiles.get? ((y % oh) * ow + (x % ow)) = some t ∧
        nt.get? (y * nw + x) = some t := by
  obtain ⟨hlen, hidx⟩ := traverseOption_spec _ h
  rw [List.length_range] at hlen
  refine ⟨hlen, ?_⟩
  intro x y hx hy
  have hnw : 0 < nw := by omega
  have hk : y * nw + x < nh * nw := by
    have h1 : y * nw + x < (y + 1) * nw := by
      rw [Nat.add_mul, Nat.one_mul]
      omega
    have h2 : (y + 1) * nw ≤ nh * nw := Nat.mul_le_mul_right _ (by omega)
    omega
  obtain ⟨x0, hx0, hfx⟩ := hidx (y * nw + x) (by simpa using hk)
  rw [List.get?_range hk] at hx0
  cases hx0
  have hmod : (y * nw + x) % nw = x := by
    rw [Nat.mul_comm y nw, Nat.mul_add_mod, Nat.mod_eq_of_lt hx]
  have hdiv : (y * nw + x) / nw = y := by
    rw [Nat.mul_comm y nw, Nat.mul_add_div hnw, Nat.div_eq_of_lt hx]
    omega
  rw [hmod, hdiv] at hfx
  have hsome : ∃ t', nt.get? (y * nw + x) = some t' := by
    have hlt : y * nw + x < nt.length := by omega
    exact ⟨nt.get ⟨_, hlt⟩, List.get?_eq_get hlt⟩
  obtain ⟨t', ht'⟩ := hsome
  rw [ht'] at hfx
  unfold newTileAt at hfx
  by_cases hz : ow = 0 ∨ oh = 0
  · simp [hz] at hfx
  · rw [if_neg hz] at hfx
    cases hget : tiles.get? ((y % oh) * ow + (x % ow)) with
    | none => rw [hget] at hfx; cases hfx
    | some t =>
        rw [hget] at hfx
        have hco := pyCopy_eq hfx
        refine ⟨t, rfl, ?_⟩
        rw [ht', hco]

theorem buildNewTiles_id {tiles : List JVal} {ow oh : Nat} {nt : List JVal}
    (hlen : tiles.length = ow * oh)
    (h : buildNewTiles tiles ow oh ow oh = some nt) : nt = tiles := by
  obtain ⟨hl, hidx⟩ := buildNewTiles_spec h
  have hcomm : oh * ow = ow * oh := Nat.mul_comm oh ow
  apply List.ext
  intro k
  by_cases hk : k < oh * ow
  · have how : 0 < ow := by
      rcases Nat.eq_zero_or_pos ow with h0 | h0
      · subst h0; simp at hk
      · exact h0
    have hx : k % ow < ow := Nat.mod_lt _ how
    have hy : k / ow < oh := by
      rw [Nat.div_lt_iff_lt_mul how]
      omega
    obtain ⟨t, ht, hnt⟩ := hidx (k % ow) (k / ow) hx hy
    have hdm : (k / ow) * ow + k % ow = k := by
      rw [Nat.mul_comm (k / ow) ow]
      exact Nat.div_add_mod k ow
    rw [Nat.mod_eq_of_lt hy, Nat.mod_eq_of_lt hx, hdm] at ht
    rw [hdm] at hnt
    rw [hnt, ht]
  · have h1 : nt.get? k = none := by
      rw [List.get?_eq_none]
      omega
    have h2 : tiles.get? k = none := by
      rw [List.get?_eq_none]
      omega
    rw [h1, h2]

theorem dictGet_map_set_self {k : String} {v : JVal} :
    ∀ {d : List (String × JVal)}, d.any (fun kv => decide (kv.1 = k)) = true →
      dictGet (d.map (fun kv => if kv.1 = k then (k, v) else kv)) k = some v := by
  intro d
  induction d with
  | nil => intro h; simp at h
  | cons kv rest ih =>
      intro h
      by_cases hk : kv.1 = k
      · simp [dictGet, hk]
      · simp only [List.any_cons, Bool.or_eq_true, decide_eq_true_eq] at h
        rcases h with h | h
        · exact absurd h hk
        · simp only [List.map_cons, if_neg hk]
          rw [dictGet, if_neg hk]
          exact ih h

theorem dictGet_map_set_ne {k k' : String} (hne : k' ≠ k) {v : JVal} :
    ∀ (d : List (String × JVal)),
      dictGet (d.map (fun kv => if kv.1 = k then (k, v) else kv)) k' = dictGet d k'
  | [] => rfl
  | kv :: rest => by
      by_cases hk : kv.1 = k
      · simp only [List.map_cons, if_pos hk]
        rw [dictGet, dictGet, if_neg (fun hh => hne hh.symm),
          if_neg (by rw [hk]; exact fun hh => hne hh.symm)]
        exact dictGet_map_set_ne hne rest
      · simp only [List.map_cons, if_neg hk]
        rw [dictGet, dictGet]
        by_cases hkk : kv.1 = k'
        · rw [if_pos hkk, if_pos hkk]
        · rw [if_neg hkk, if_neg hkk]
          exact dictGet_map_set_ne hne rest

theorem dictGet_append_absent {k : String} {v : JVal} :
    ∀ {d : List (String × JVal)}, d.any (fun kv => decide (kv.1 = k)) = false →
      dictGet (d ++ [(k, v)]) k = some v := by
  intro d
  induction d with
  | nil => intro _; simp [dictGet]
  | cons kv rest ih =>
      intro h
      rw [List.any_cons, Bool.or_eq_false_iff] at h
      rw [List.cons_append, dictGet, if_neg (by simpa using h.1)]
      exact ih h.2

theorem dictGet_append_ne {k k' : String} (hne : k' ≠ k) {v : JVal} :
    ∀ (d : List (String × JVal)),
      dictGet (d ++ [(k, v)]) k' = dictGet d k'
  | [] => by simp [dictGet, Ne.symm hne]
  | kv :: rest => by
      rw [List.cons_append, dictGet, dictGet]
      by_cases hkk : kv.1 = k'
      · rw [if_pos hkk, if_pos hkk]
      · rw [if_neg hkk, if_neg hkk]
        exact dictGet_append_ne hne rest

theorem dictGet_setField_self (d : List (String × JVal)) (k : String) (v : JVal) :
    dictGet (setField d k v) k = some v := by
  unfold setField
  by_cases h : d.any (fun kv => decide (kv.1 = k)) = true
  · rw [if_pos h]
    exact dictGet_map_set_self h
  · rw [if_neg h]
    exact dictGet_append_absent (by rwa [Bool.not_eq_true] at h)

theorem dictGet_setField_ne (d : List (String × JVal)) (k : String) (v : JVal)
    {k' : String} (hne : k' ≠ k) :
    dictGet (setField d k v) k' = dictGet d k' := by
  unfold setField
  by_cases hany : d.any (fun kv => decide (kv.1 = k)) = true
  · rw [if_pos hany]
    exact dictGet_map_set_ne hne d
  · rw [if_neg hany]
    exact dictGet_append_ne hne d

theorem setField_ne_nil (d : List (String × JVal)) (k : String) (v : JVal) :
    setField d k v ≠ [] := by
  unfold setField
  by_cases h : d.any (fun kv => decide (kv.1 = k)) = true
  · rw [if_pos h]
    intro hc
    rw [List.map_eq_nil] at hc
    subst hc
    simp at h
  · rw [if_neg h]
    simp

theorem dictGet_mapReplace_ne (d : List (String × JVal)) (k0 : String) (w : JVal)
    {k : String} (hne : k ≠ k0) :
    dictGet (d.map (fun kv => if kv.1 = k0 then (kv.1, w) else kv)) k = dictGet d k := by
  induction d with
  | nil => rfl
  | cons kv rest ih =>
      by_cases hk : kv.1 = k0
      · simp only [List.map_cons, if_pos hk]
        rw [dictGet, dictGet]
        by_cases hkk : kv.1 = k
        · exact absurd (hkk ▸ hk) hne
        · rw [if_neg hkk, if_neg hkk]
          exact ih
      · simp only [List.map_cons, if_neg hk]
        rw [dictGet, dictGet]
        by_cases hkk : kv.1 = k
        · rw [if_pos hkk, if_pos hkk]
        · rw [if_neg hkk, if_neg hkk]
          exact ih

theorem dictGet_mapReplace_self (d : List (String × JVal)) (k0 : String) (w : JVal)
    {v0 : JVal} (hp : dictGet d k0 = some v0) :
    dictGet (d.map (fun kv => if kv.1 = k0 then (kv.1, w) else kv)) k0 = some w := by
  induction d with
  | nil => cases hp
  | cons kv rest ih =>
      by_cases hk : kv.1 = k0
      · simp only [List.map_cons, if_pos hk]
        rw [dictGet, if_pos hk]
      · simp only [List.map_cons, if_neg hk]
        rw [dictGet, if_neg hk]
        rw [dictGet, if_neg hk] at hp
        exact ih hp

theorem find315_spec (ent2 : JVal) :
    ∀ (tms : List JVal) (j : Nat) (ent : JVal),
      find315 tms = some (some (j, ent)) →
      ∃ r, tms.get? j = some (.list (.num 315 :: ent :: r)) ∧
        update315 ent2 tms = tms.set j (.list (.num 315 :: ent2 :: r)) ∧
        find315 (update315 ent2 tms) = some (some (j, ent2)) := by
  intro tms
  induction tms with
  | nil => intro j ent h; simp [find315] at h
  | cons e more ih =>
      intro j ent h
      rcases e with n | st | b | _ | l | o
      case list =>
        rcases l with _ | ⟨i, l⟩
        · simp [find315] at h
        rcases l with _ | ⟨e0, rest⟩
        · -- entry `[i]`
          by_cases hi : i = JVal.num 315
          · rw [find315, if_pos hi] at h
            cases h
          · rw [find315, if_neg hi] at h
            rw [Option.map_eq_some'] at h
            obtain ⟨r0, hr0, hmap⟩ := h
            cases r0 with
            | none => simp at hmap
            | some p =>
                simp only [Option.map_some', Option.some.injEq] at hmap
                obtain ⟨j', ent'⟩ := p
                have hj : j = j' + 1 := by
                  have := congrArg Prod.fst hmap
                  simpa using this.symm
                have hent : ent' = ent := by
                  have := congrArg Prod.snd hmap
                  simpa using this
                subst hj
                subst hent
                obtain ⟨r, hget, hupd, hfind⟩ := ih j' ent' hr0
                refine ⟨r, by simpa using hget, ?_, ?_⟩
                · show JVal.list [i] :: update315 ent2 more = _
                  rw [hupd]
                  rfl
                · show find315 (JVal.list [i] :: update315 ent2 more) = _
                  rw [find315, if_neg hi, hfind]
                  rfl
        · -- entry `i :: e0 :: rest`
          by_cases hi : i = JVal.num 315
          · subst hi
            rw [find315, if_pos rfl] at h
            simp only [Option.some.injEq] at h
            have hj : j = 0 := by
              have := congrArg Prod.fst h
              simpa using this.symm
            have hent : e0 = ent := by
              have := congrArg Prod.snd h
              simpa using this
            subst hj
            subst hent
            refine ⟨rest, by simp, ?_, ?_⟩
            · rw [update315, if_pos rfl]
              rfl
            · rw [update315, if_pos rfl, find315, if_pos rfl]
          · rw [find315, if_neg hi] at h
            rw [Option.map_eq_some'] at h
            obtain ⟨r0, hr0, hmap⟩ := h
            cases r0 with
            | none => simp at hmap
            | some p =>
                simp only [Option.map_some', Option.some.injEq] at hmap
                obtain ⟨j', ent'⟩ := p
                have hj : j = j' + 1 := by
                  have := congrArg Prod.fst hmap
                  simpa using this.symm
                have hent : ent' = ent := by
                  have := congrArg Prod.snd hmap
                  simpa using this
                subst hj
                subst hent
                obtain ⟨r, hget, hupd, hfind⟩ := ih j' ent' hr0
                refine ⟨r, by simpa using hget, ?_, ?_⟩
                · rw [update315, if_neg hi, hupd]
                  rfl
                · rw [update315, if_neg hi, find315, if_neg hi]
                  have : find315 (update315 ent2 more) = some (some (j', ent2)) := hfind
                  rw [this]
                  rfl
      all_goals simp [find315] at h

theorem find315_none :
    ∀ {tms : List JVal}, tms.all wfTilemapEntry = true →
      tms.all (fun e => !entryIs315 e) = true →
      find315 tms = some none := by
  intro tms
  induction tms with
  | nil => intro _ _; rfl
  | cons e more ih =>
      intro hwf h315
      rw [List.all_cons, Bool.and_eq_true] at hwf h315
      obtain ⟨hwf1, hwf2⟩ := hwf
      obtain ⟨h3151, h3152⟩ := h315
      rcases e with n | st | b | _ | l | o <;> simp [wfTilemapEntry] at hwf1
      rcases l with _ | ⟨i, l⟩
      · simp [wfTilemapEntry] at hwf1
      have hi : ¬ (i = JVal.num 315) := by
        simpa [entryIs315] using h3151
      rcases l with _ | ⟨e0, rest⟩
      · rw [find315, if_neg hi, ih hwf2 h3152]
        rfl
      · rw [find315, if_neg hi, ih hwf2 h3152]
        rfl

theorem colliderIdsOf_nil :
    ∀ {ns : List JVal}, ns.all wfNameEntry = true →
      ns.all (fun e => !nameEntryCollider e) = true →
      colliderIdsOf ns = some [] := by
  intro ns
  induction ns with
  | nil => intro _ _; rfl
  | cons e rest ih =>
      intro hwf hnc
      rw [List.all_cons, Bool.and_eq_true] at hwf hnc
      obtain ⟨hwf1, hwf2⟩ := hwf
      obtain ⟨hnc1, hnc2⟩ := hnc
      rcases e with n | st | b | _ | l | o <;> simp [wfNameEntry] at hwf1
      rcases l with _ | ⟨i, l⟩
      · simp [wfNameEntry] at hwf1
      rcases l with _ | ⟨e0, l⟩
      · simp [wfNameEntry] at hwf1
      rcases e0 with n2 | st2 | b2 | _ | l2 | o2 <;> simp [wfNameEntry] at hwf1
      have hcol : isColliderName st2 = false := by
        simpa [nameEntryCollider] using hnc1
      rw [colliderIdsOf, ih hwf2 hnc2]
      simp [hcol]

theorem count_filter_jval (p : JVal → Bool) (e : JVal) :
    ∀ (l : List JVal),
      (l.filter p).count e = if p e then l.count e else 0 := by
  intro l
  induction l with
  | nil => simp
  | cons a l ih =>
      by_cases hp : p a = true
      · rw [List.filter_cons_of_pos hp, List.count_cons, List.count_cons, ih]
        by_cases he : a = e
        · subst he
          simp [hp]
        · simp [he]
      · rw [List.filter_cons_of_neg (by simpa using hp), List.count_cons, ih]
        by_cases he : a = e
        · subst he
          simp [hp]
        · simp [he]

theorem expand_eq_notFound {scene : List (String × JVal)} {ow oh nw nh : Nat}
    {tms : List JVal}
    (h1 : tilemapsOf scene = some tms)
    (h2 : find315 tms = some none) :
    expand_tilemap scene ow oh nw nh = some (.failure .notFound) := by
  unfold expand_tilemap
  simp only [h1, h2]

theorem expand_eq_notFound_falsy {scene : List (String × JVal)} {ow oh nw nh : Nat}
    {tms : List JVal} {j : Nat} {ent : JVal}
    (h1 : tilemapsOf scene = some tms)
    (h2 : find315 tms = some (some (j, ent)))
    (h3 : pyTruthy ent = false) :
    expand_tilemap scene ow oh nw nh = some (.failure .notFound) := by
  unfold expand_tilemap
  simp only [h1, h2, h3, if_true]

theorem expand_eq_countMismatch {scene : List (String × JVal)} {ow oh nw nh : Nat}
    {tms : List JVal} {j : Nat} {entF : List (String × JVal)} {tiles : List JVal}
    (h1 : tilemapsOf scene = some tms)
    (h2 : find315 tms = some (some (j, .obj entF)))
    (h3 : entF ≠ [])
    (h4 : (dictGet entF "tiles").getD (.list []) = .list tiles)
    (h5 : tiles.length ≠ ow * oh) :
    expand_tilemap scene ow oh nw nh
      = some (.failure (.countMismatch (ow * oh) tiles.length)) := by
  have htr : pyTruthy (.obj entF) = true := by
    simp [pyTruthy, h3]
  unfold expand_tilemap
  simp only [h1, h2, htr]
  rw [if_neg (by simp : ¬ (true = false))]
  unfold expandWithEntity
  simp only [h4]
  rw [if_pos h5]

theorem expand_eq_success {scene : List (String × JVal)} {ow oh nw nh : Nat}
    {tms : List JVal} {j : Nat} {entF : List (String × JVal)} {tiles nt : List JVal}
    (h1 : tilemapsOf scene = some tms)
    (h2 : find315 tms = some (some (j, .obj entF)))
    (h3 : entF ≠ [])
    (h4 : (dictGet entF "tiles").getD (.list []) = .list tiles)
    (h5 : tiles.length = ow * oh)
    (h6 : buildNewTiles tiles ow oh nw nh = some nt) :
    expand_tilemap scene ow oh nw nh = some (.success (scene.map (fun kv =>
      if kv.1 = "tilemaps"
      then (kv.1, .list (update315 (.obj (setField (setField (setField entF
        "tiles" (.list nt)) "width" (.num nw)) "height" (.num nh))) tms))
      else kv))) := by
  have htr : pyTruthy (.obj entF) = true := by
    simp [pyTruthy, h3]
  unfold expand_tilemap
  simp only [h1, h2, htr]
  rw [if_neg (by simp : ¬ (true = false))]
  unfold expandWithEntity
  simp only [h4]
  rw [if_neg (by omega : ¬ tiles.length ≠ ow * oh)]
  simp only [h6]

theorem expand_success_inv {scene : List (String × JVal)} {ow oh nw nh : Nat}
    {out : List (String × JVal)}
    (h : expand_tilemap scene ow oh nw nh = some (.success out)) :
    ∃ tms j entF tiles nt,
      tilemapsOf scene = some tms ∧
      dictGet scene "tilemaps" = some (.list tms) ∧
      find315 tms = some (some (j, .obj entF)) ∧
      entF ≠ [] ∧
      (dictGet entF "tiles").getD (.list []) = .list tiles ∧
      tiles.length = ow * oh ∧
      buildNewTiles tiles ow oh nw nh = some nt ∧
      out = scene.map (fun kv =>
        if kv.1 = "tilemaps"
        then (kv.1, .list (update315 (.obj (setField (setField (setField entF
          "tiles" (.list nt)) "width" (.num nw)) "height" (.num nh))) tms))
        else kv) := by
  unfold expand_tilemap at h
  cases h1 : tilemapsOf scene with
  | none =>
      simp only [h1] at h
      exact Option.noConfusion h
  | some tms =>
    simp only [h1] at h
    cases h2 : find315 tms with
    | none =>
        simp only [h2] at h
        exact Option.noConfusion h
    | some fnd =>
      cases fnd with
      | none =>
          simp only [h2] at h
          injection h with h7
          cases h7
      | some p =>
        obtain ⟨j, ent⟩ := p
        simp only [h2] at h
        by_cases h3 : pyTruthy ent = false
        · simp [h3] at h
        · rw [Bool.not_eq_false] at h3
          rw [h3, if_neg (by simp : ¬ (true = false))] at h
          cases ent with
          | obj entF =>
            unfold expandWithEntity at h
            cases h4 : (dictGet entF "tiles").getD (.list []) with
            | list tiles =>
                simp only [h4] at h
                by_cases h5 : tiles.length = ow * oh
                · rw [if_neg (by omega : ¬ tiles.length ≠ ow * oh)] at h
                  cases h6 : buildNewTiles tiles ow oh nw nh with
                  | none =>
                      simp only [h6] at h
                      exact Option.noConfusion h
                  | some nt =>
                      simp only [h6, Option.some.injEq] at h
                      have hout := (ExpandOutcome.success.injEq ..).mp h
                      have hne : entF ≠ [] := by
                        intro hc
                        subst hc
                        simp [pyTruthy] at h3
                      have htm : dictGet scene "tilemaps" = some (.list tms) := by
                        unfold tilemapsOf at h1
                        cases hd : dictGet scene "tilemaps" with
                        | none =>
                            rw [hd] at h1
                            simp only [Option.some.injEq] at h1
                            subst h1
                            simp [find315] at h2
                        | some v =>
                            rw [hd] at h1
                            cases v <;> simp_all
                      exact ⟨tms, j, entF, tiles, nt, rfl, htm, h2, hne, h4, h5, h6,
                        hout.symm⟩
                · rw [if_pos h5] at h
                  injection h with h7
                  cases h7
            | num n => simp only [h4] at h; exact Option.noConfusion h
            | str st => simp only [h4] at h; exact Option.noConfusion h
            | bool b => simp only [h4] at h; exact Option.noConfusion h
            | null => simp only [h4] at h; exact Option.noConfusion h
            | obj o2 => simp only [h4] at h; exact Option.noConfusion h
          | num n => simp only [expandWithEntity] at h; exact Option.noConfusion h
          | str st => simp only [expandWithEntity] at h; exact Option.noConfusion h
          | bool b => simp only [expandWithEntity] at h; exact Option.noConfusion h
          | null => simp only [expandWithEntity] at h; exact Option.noConfusion h
          | list l2 => simp only [expandWithEntity] at h; exact Option.noConfusion h

theorem keepEntry_iff (ids : List JVal) (e : JVal) :
    keepEntry ids e = true ↔
      ((∀ l, e ≠ JVal.list l) ∨ e = JVal.list [] ∨
        ∃ i t, e = JVal.list (i :: t) ∧ i ∉ ids) := by
  cases e with
  | list l =>
      cases l with
      | nil =>
          constructor
          · intro _
            exact Or.inr (Or.inl rfl)
          · intro _
            rfl
      | cons i t =>
          simp only [keepEntry, decide_eq_true_eq]
          constructor
          · intro hk
            exact Or.inr (Or.inr ⟨i, t, rfl, hk⟩)
          · rintro (hA | hB | ⟨i2, t2, heq, hmem⟩)
            · exact absurd rfl (hA (i :: t))
            · simp at hB
            · simp only [JVal.list.injEq, List.cons.injEq] at heq
              obtain ⟨hi, _⟩ := heq
              subst hi
              exact hmem
  | num n =>
      constructor
      · intro _
        exact Or.inl (fun l hc => by cases hc)
      · intro _
        rfl
  | str st =>
      constructor
      · intro _
        exact Or.inl (fun l hc => by cases hc)
      · intro _
        rfl
  | bool b =>
      constructor
      · intro _
        exact Or.inl (fun l hc => by cases hc)
      · intro _
        rfl
  | null =>
      constructor
      · intro _
        exact Or.inl (fun l hc => by cases hc)
      · intro _
        rfl
  | obj o =>
      constructor
      · intro _
        exact Or.inl (fun l hc => by cases hc)
      · intro _
        rfl

/-! ## Claims -/

/-- C1: the spec says the `.json.backup` file is an unmodified copy of the
pre-cleanup document.  The code filters `scene_data` in place *before*
dumping the backup, so on `sceneC1` (one collider entity, confirmed with
`y`) the backup content equals the already-filtered document and differs
from the original.  This theorem evaluates the code at that failing
input. -/
theorem C1_backup_equals_filtered_document :
    cleanupMain sceneC1 "y".data
      = some (.ran (.written sceneC1cleaned sceneC1cleaned)) ∧
    sceneC1cleaned ≠ sceneC1 := by decide

/-- C7: when no entry of the `names` section carries a name starting with
`CompositeCollider` or `Collider_` (and every entry is shaped as the loop
expects), `cleanup_scene_colliders` returns through the early-exit branch:
no backup and no scene file are written. -/
theorem C7_no_collider_early_return (scene : List (String × JVal))
    (ns : List JVal)
    (h1 : namesOf scene = some ns)
    (h2 : ns.all wfNameEntry = true)
    (h3 : ns.all (fun e => !nameEntryCollider e) = true) :
    cleanup_scene_colliders scene = some CleanOutcome.noChange := by
  unfold cleanup_scene_colliders
  simp only [h1, colliderIdsOf_nil h2 h3]
  rfl

/-- Witness for C7 at a concrete scene with only a `Player` name. -/
theorem C7_no_collider_early_return_witness :
    cleanup_scene_colliders sceneC7 = some CleanOutcome.noChange :=
  C7_no_collider_early_return sceneC7 [.list [.num 2, .str "Player"]]
    (by decide) (by decide) (by decide)

/-- C8: cleanup runs only when the prompt reply, stripped and lowercased,
is `y` or `yes`; any other reply takes the `Cleanup cancelled.` branch,
which changes no file and still exits with status 0. -/
theorem C8_confirmation_gate (scene : List (String × JVal))
    (response : List Char) :
    (confirmed response = true ↔
      (pyLower (pyStrip response) = "y".data ∨
        pyLower (pyStrip response) = "yes".data)) ∧
    (confirmed response = false →
      cleanupMain scene response = some MainOutcome.cancelled ∧
      cleanupMainExit scene response = some 0) ∧
    (confirmed response = true →
      cleanupMain scene response
        = (cleanup_scene_colliders scene).map MainOutcome.ran) := by
  refine ⟨?_, ?_, ?_⟩
  · unfold confirmed
    simp
  · intro hf
    constructor
    · unfold cleanupMain
      rw [hf, if_neg (by simp : ¬ (false = true))]
      rfl
    · unfold cleanupMainExit cleanupMain
      rw [hf, if_neg (by simp : ¬ (false = true))]
      rfl
  · intro ht
    unfold cleanupMain
    rw [ht, if_pos rfl]

/-- Witness for C8: a declined reply (` N `) cancels with exit 0, an
accepting reply (` Y `) runs the cleanup. -/
theorem C8_confirmation_gate_witness :
    (cleanupMain sceneC7 " N ".data = some MainOutcome.cancelled ∧
      cleanupMainExit sceneC7 " N ".data = some 0) ∧
    cleanupMain sceneC7 " Y ".data
      = (cleanup_scene_colliders sceneC7).map MainOutcome.ran :=
  ⟨(C8_confirmation_gate sceneC7 " N ".data).2.1 (by decide),
   (C8_confirmation_gate sceneC7 " Y ".data).2.2 (by decide)⟩

/-- C10: an entry with id 315 whose associated data is falsy (for example
the empty mapping) makes `if not tilemap_entity:` fire, so the tool
reports the entity as not found even though the entry exists. -/
theorem C10_truthy_presence_check (scene : List (String × JVal))
    (ow oh nw nh : Nat) (tms : List JVal) (j : Nat) (ent : JVal)
    (h1 : tilemapsOf scene = some tms)
    (h2 : find315 tms = some (some (j, ent)))
    (h3 : pyTruthy ent = false) :
    expand_tilemap scene ow oh nw nh = some (.failure .notFound) :=
  expand_eq_notFound_falsy h1 h2 h3

/-- Witness for C10 at a scene whose 315 entry holds an empty mapping. -/
theorem C10_truthy_presence_check_witness :
    expand_tilemap sceneC10 10 10 20 20 = some (.failure .notFound) :=
  C10_truthy_presence_check sceneC10 10 10 20 20
    [.list [.num 315, .obj []]] 0 (.obj []) (by decide) (by decide) (by decide)

/-- C6: when no tilemaps entry carries id 315 (part 1), or the found
entity's tile count differs from `old_width * old_height` (part 2), the
expander returns `False` before any write — the scene file is untouched —
and the `__main__` block exits with status 1. -/
theorem C6_expander_error_exits :
    (∀ (scene : List (String × JVal)) (ow oh nw nh : Nat) (tms : List JVal),
      tilemapsOf scene = some tms →
      tms.all wfTilemapEntry = true →
      tms.all (fun e => !entryIs315 e) = true →
      expand_tilemap scene ow oh nw nh = some (.failure .notFound) ∧
      expanderMainExit scene = some 1) ∧
    (∀ (scene : List (String × JVal)) (ow oh nw nh : Nat) (tms : List JVal)
      (j : Nat) (entF : List (String × JVal)) (tiles : List JVal),
      tilemapsOf scene = some tms →
      find315 tms = some (some (j, .obj entF)) →
      entF ≠ [] →
      (dictGet entF "tiles").getD (.list []) = .list tiles →
      tiles.length ≠ ow * oh →
      expand_tilemap scene ow oh nw nh
        = some (.failure (.countMismatch (ow * oh) tiles.length)) ∧
      (tiles.length ≠ 100 → expanderMainExit scene = some 1)) := by
  constructor
  · intro scene ow oh nw nh tms h1 h2 h3
    refine ⟨expand_eq_notFound h1 (find315_none h2 h3), ?_⟩
    unfold expanderMainExit
    rw [expand_eq_notFound h1 (find315_none h2 h3)]
    rfl
  · intro scene ow oh nw nh tms j entF tiles h1 h2 h3 h4 h5
    refine ⟨expand_eq_countMismatch h1 h2 h3 h4 h5, ?_⟩
    intro h100
    unfold expanderMainExit
    rw [expand_eq_countMismatch h1 h2 h3 h4 (by omega : tiles.length ≠ 10 * 10)]
    rfl

/-- Witness for C6: a scene whose only entry has id 7 (not found), and
the 1×1 scene `sceneB` run with claimed old dimensions 3×3 (count
mismatch: 1 tile instead of 9). -/
theorem C6_expander_error_exits_witness :
    (expand_tilemap sceneC6a 10 10 20 20 = some (.failure .notFound) ∧
      expanderMainExit sceneC6a = some 1) ∧
    (expand_tilemap sceneB 3 3 2 2
        = some (.failure (.countMismatch 9 1)) ∧
      ((1 : Nat) ≠ 100 → expanderMainExit sceneB = some 1)) :=
  ⟨C6_expander_error_exits.1 sceneC6a 10 10 20 20
      [.list [.num 7, .obj [("tiles", .list [])]]]
      (by decide) (by decide) (by decide),
   C6_expander_error_exits.2 sceneB 3 3 2 2
      [.list [.num 315, .obj [("tiles", .list [tileA]), ("width", .num 1),
        ("height", .num 1)]]]
      0 [("tiles", .list [tileA]), ("width", .num 1), ("height", .num 1)]
      [tileA]
      (by decide) (by decide) (by decide) (by decide) (by decide)⟩

/-- C2: on any successful run with new dimensions at least the old ones,
the expanded tile array `nt` has `nh * nw` entries and the tile at
flattened row-major index `y * nw + x` equals the original tile at
flattened index `(y % oh) * ow + (x % ow)`, for every cell of the new
grid. -/
theorem C2_tiling_formula (scene out : List (String × JVal)) (ow oh nw nh : Nat)
    (_hw : ow ≤ nw) (_hh : oh ≤ nh)
    (hs : expand_tilemap scene ow oh nw nh = some (.success out)) :
    ∃ tms j entF tiles nt,
      tilemapsOf scene = some tms ∧
      find315 tms = some (some (j, .obj entF)) ∧
      (dictGet entF "tiles").getD (.list []) = .list tiles ∧
      tiles.length = ow * oh ∧
      buildNewTiles tiles ow oh nw nh = some nt ∧
      nt.length = nh * nw ∧
      ∀ x y, x < nw → y < nh →
        ∃ t, tiles.get? ((y % oh) * ow + (x % ow)) = some t ∧
          nt.get? (y * nw + x) = some t := by
  obtain ⟨tms, j, entF, tiles, nt, h1, _, h2, _, h4, h5, h6, _⟩ :=
    expand_success_inv hs
  obtain ⟨hlen, hidx⟩ := buildNewTiles_spec h6
  exact ⟨tms, j, entF, tiles, nt, h1, h2, h4, h5, h6, hlen, hidx⟩

/-- Witness for C2 on `sceneB` expanded 1×1 → 2×2. -/
theorem C2_tiling_formula_witness :
    ∃ tms j entF tiles nt,
      tilemapsOf sceneB = some tms ∧
      find315 tms = some (some (j, .obj entF)) ∧
      (dictGet entF "tiles").getD (.list []) = .list tiles ∧
      tiles.length = 1 * 1 ∧
      buildNewTiles tiles 1 1 2 2 = some nt ∧
      nt.length = 2 * 2 ∧
      ∀ x y, x < 2 → y < 2 →
        ∃ t, tiles.get? ((y % 1) * 1 + (x % 1)) = some t ∧
          nt.get? (y * 2 + x) = some t :=
  C2_tiling_formula sceneB sceneBexpanded 1 1 2 2 (by decide) (by decide)
    (by decide)

/-- C3: a successful run with `new_width = old_width` and
`new_height = old_height` rebuilds a tile array equal element-for-element
to the original one. -/
theorem C3_equal_dims_identity (scene out : List (String × JVal)) (ow oh : Nat)
    (hs : expand_tilemap scene ow oh ow oh = some (.success out)) :
    ∃ tms j entF tiles nt,
      tilemapsOf scene = some tms ∧
      find315 tms = some (some (j, .obj entF)) ∧
      (dictGet entF "tiles").getD (.list []) = .list tiles ∧
      tiles.length = ow * oh ∧
      buildNewTiles tiles ow oh ow oh = some nt ∧
      nt = tiles := by
  obtain ⟨tms, j, entF, tiles, nt, h1, _, h2, _, h4, h5, h6, _⟩ :=
    expand_success_inv hs
  exact ⟨tms, j, entF, tiles, nt, h1, h2, h4, h5, h6, buildNewTiles_id h5 h6⟩

/-- Witness for C3: the 1×1 → 1×1 run on `sceneB` succeeds and leaves the
document unchanged, so the theorem applies with `out = sceneB`. -/
theorem C3_equal_dims_identity_witness :
    ∃ tms j entF tiles nt,
      tilemapsOf sceneB = some tms ∧
      find315 tms = some (some (j, .obj entF)) ∧
      (dictGet entF "tiles").getD (.list []) = .list tiles ∧
      tiles.length = 1 * 1 ∧
      buildNewTiles tiles 1 1 1 1 = some nt ∧
      nt = tiles :=
  C3_equal_dims_identity sceneB sceneB 1 1 (by decide)

set_option maxRecDepth 40000 in
/-- C4 counterexample: the claim says the second run with the same stale
parameters recomputes the tiling "rather than failing".  On the default
10×10 → 20×20 parameters, the first run succeeds, but the second run on
the expanded file finds 400 tiles where it expects 100 and fails with the
tile-count error (returning `False`, exit status 1, no write). -/
theorem C4_rerun_counterexample :
    expand_tilemap sceneRT 10 10 20 20 = some (.success sceneRTexpanded) ∧
    expand_tilemap sceneRTexpanded 10 10 20 20
      = some (.failure (.countMismatch 100 400)) := by
  constructor
  · decide
  · decide

/-- C4 amended: re-running the expander on an already-expanded file with
the same old/new parameters does not recompute the tiling; whenever the
new tile count `nh * nw` differs from `ow * oh`, the second run fails the
tile-count check (expected `ow * oh`, found `nh * nw`) and leaves the
file untouched. -/
theorem C4_rerun_with_stale_dims_fails (scene out : List (String × JVal))
    (ow oh nw nh : Nat)
    (hs : expand_tilemap scene ow oh nw nh = some (.success out))
    (hne : nh * nw ≠ ow * oh) :
    expand_tilemap out ow oh nw nh
      = some (.failure (.countMismatch (ow * oh) (nh * nw))) := by
  obtain ⟨tms, j, entF, tiles, nt, h1, htm, h2, hne2, h4, h5, h6, hout⟩ :=
    expand_success_inv hs
  obtain ⟨hlen, _⟩ := buildNewTiles_spec h6
  obtain ⟨r, hget, hupd, hfind⟩ := find315_spec
    (.obj (setField (setField (setField entF "tiles" (.list nt)) "width"
      (.num nw)) "height" (.num nh))) tms j (.obj entF) h2
  have hdout : dictGet out "tilemaps"
      = some (.list (update315 (.obj (setField (setField (setField entF
        "tiles" (.list nt)) "width" (.num nw)) "height" (.num nh))) tms)) := by
    rw [hout]
    exact dictGet_mapReplace_self scene "tilemaps" _ htm
  have htms2 : tilemapsOf out
      = some (update315 (.obj (setField (setField (setField entF
        "tiles" (.list nt)) "width" (.num nw)) "height" (.num nh))) tms) := by
    unfold tilemapsOf
    rw [hdout]
  have htiles2 : (dictGet (setField (setField (setField entF
      "tiles" (.list nt)) "width" (.num nw)) "height" (.num nh))
      "tiles").getD (.list []) = .list nt := by
    rw [dictGet_setField_ne _ _ _ (by decide),
      dictGet_setField_ne _ _ _ (by decide),
      dictGet_setField_self]
    rfl
  have hm : expand_tilemap out ow oh nw nh
      = some (.failure (.countMismatch (ow * oh) nt.length)) :=
    expand_eq_countMismatch htms2 hfind (setField_ne_nil _ _ _) htiles2
      (by omega)
  rw [hlen] at hm
  exact hm

/-- Witness for C4 amended: `sceneB` expanded 1×1 → 2×2; re-running on
the result fails with expected 1, found 4. -/
theorem C4_rerun_with_stale_dims_fails_witness :
    expand_tilemap sceneBexpanded 1 1 2 2
      = some (.failure (.countMismatch 1 4)) :=
  C4_rerun_with_stale_dims_fails sceneB sceneBexpanded 1 1 2 2
    (by decide) (by decide)

/-- C5: for a scene in which collider entities were identified (`ids`,
collected from `names`, non-empty), the written document is the section
map where every list-valued section keeps exactly the entries with
`keepEntry`: retained entries are unchanged and in their original
relative order (`Sublist`), the multiplicity of every kept entry is
preserved and every removed entry's multiplicity is 0, and `keepEntry`
holds exactly for non-list entries, empty-list entries, and entries whose
first element is outside `ids`.  Non-list sections are untouched. -/
theorem C5_removal_pass_filters_sections (scene : List (String × JVal))
    (ns ids : List JVal)
    (h1 : namesOf scene = some ns)
    (h2 : colliderIdsOf ns = some ids)
    (h3 : ids ≠ []) :
    ∃ cleaned,
      cleanup_scene_colliders scene = some (.written cleaned cleaned) ∧
      cleaned.length = scene.length ∧
      (∀ e, keepEntry ids e = true ↔
        ((∀ l, e ≠ JVal.list l) ∨ e = JVal.list [] ∨
          ∃ i t, e = JVal.list (i :: t) ∧ i ∉ ids)) ∧
      ∀ p k v, scene.get? p = some (k, v) →
        ((∀ es, v ≠ JVal.list es) → cleaned.get? p = some (k, v)) ∧
        ∀ es, v = JVal.list es →
          cleaned.get? p = some (k, .list (es.filter (keepEntry ids))) ∧
          (es.filter (keepEntry ids)).Sublist es ∧
          ∀ e, (es.filter (keepEntry ids)).count e
            = if keepEntry ids e then es.count e else 0 := by
  have hne : ¬ (ids.isEmpty = true) := by
    cases ids with
    | nil => exact absurd rfl h3
    | cons a l => simp [List.isEmpty]
  refine ⟨scene.map (fun kv => (kv.1, filterSection ids kv.2)), ?_, ?_, ?_, ?_⟩
  · unfold cleanup_scene_colliders
    simp only [h1, h2]
    rw [if_neg hne]
  · exact List.length_map scene _
  · exact keepEntry_iff ids
  · intro p k v hp
    have hmap : (scene.map (fun kv => (kv.1, filterSection ids kv.2))).get? p
        = some (k, filterSection ids v) := by
      rw [List.get?_map, hp]
      rfl
    constructor
    · intro hnl
      have hfs : filterSection ids v = v := by
        cases v with
        | list es => exact absurd rfl (hnl es)
        | num n => rfl
        | str st => rfl
        | bool b => rfl
        | null => rfl
        | obj o => rfl
      rw [hmap, hfs]
    · intro es hv
      subst hv
      refine ⟨hmap, List.filter_sublist es, fun e => count_filter_jval _ e es⟩

/-- Witness for C5 on `sceneC1` (identified set `{1}`). -/
theorem C5_removal_pass_filters_sections_witness :
    ∃ cleaned,
      cleanup_scene_colliders sceneC1 = some (.written cleaned cleaned) ∧
      cleaned.length = sceneC1.length ∧
      (∀ e, keepEntry [.num 1] e = true ↔
        ((∀ l, e ≠ JVal.list l) ∨ e = JVal.list [] ∨
          ∃ i t, e = JVal.list (i :: t) ∧ i ∉ [JVal.num 1])) ∧
      ∀ p k v, sceneC1.get? p = some (k, v) →
        ((∀ es, v ≠ JVal.list es) → cleaned.get? p = some (k, v)) ∧
        ∀ es, v = JVal.list es →
          cleaned.get? p = some (k, .list (es.filter (keepEntry [.num 1]))) ∧
          (es.filter (keepEntry [.num 1])).Sublist es ∧
          ∀ e, (es.filter (keepEntry [.num 1])).count e
            = if keepEntry [.num 1] e then es.count e else 0 :=
  C5_removal_pass_filters_sections sceneC1
    [.list [.num 1, .str "Collider_wall"], .list [.num 2, .str "Player"]]
    [.num 1] (by decide) (by decide) (by decide)

/-- C9: on a successful run, the written document differs from the input
only inside the `tilemaps` section, where only the entry found for id 315
changes, and within that entry's data mapping only the `tiles`, `width`
and `height` fields are overwritten; every other top-level section, every
other tilemaps entry, the entry's id and trailing elements, and every
other field of the entity's mapping are unchanged. -/
theorem C9_success_frame (scene out : List (String × JVal)) (ow oh nw nh : Nat)
    (hs : expand_tilemap scene ow oh nw nh = some (.success out)) :
    ∃ tms j entF r tiles nt entF2,
      tilemapsOf scene = some tms ∧
      find315 tms = some (some (j, .obj entF)) ∧
      tms.get? j = some (.list (.num 315 :: .obj entF :: r)) ∧
      (dictGet entF "tiles").getD (.list []) = .list tiles ∧
      buildNewTiles tiles ow oh nw nh = some nt ∧
      entF2 = setField (setField (setField entF "tiles" (.list nt)) "width"
        (.num nw)) "height" (.num nh) ∧
      (∀ k, k ≠ "tilemaps" → dictGet out k = dictGet scene k) ∧
      dictGet out "tilemaps"
        = some (.list (tms.set j (.list (.num 315 :: .obj entF2 :: r)))) ∧
      (∀ i, i ≠ j →
        (tms.set j (.list (.num 315 :: .obj entF2 :: r))).get? i
          = tms.get? i) ∧
      dictGet entF2 "tiles" = some (.list nt) ∧
      dictGet entF2 "width" = some (.num nw) ∧
      dictGet entF2 "height" = some (.num nh) ∧
      (∀ k, k ≠ "tiles" → k ≠ "width" → k ≠ "height" →
        dictGet entF2 k = dictGet entF k) := by
  obtain ⟨tms, j, entF, tiles, nt, h1, htm, h2, hne2, h4, h5, h6, hout⟩ :=
    expand_success_inv hs
  obtain ⟨r, hget, hupd, hfind⟩ := find315_spec
    (.obj (setField (setField (setField entF "tiles" (.list nt)) "width"
      (.num nw)) "height" (.num nh))) tms j (.obj entF) h2
  refine ⟨tms, j, entF, r, tiles, nt, _, h1, h2, hget, h4, h6, rfl,
    ?_, ?_, ?_, ?_, ?_, ?_, ?_⟩
  · intro k hk
    rw [hout]
    exact dictGet_mapReplace_ne scene "tilemaps" _ hk
  · rw [hout, dictGet_mapReplace_self scene "tilemaps" _ htm, hupd]
  · intro i hi
    exact List.get?_set_ne _ _ (Ne.symm hi)
  · rw [dictGet_setField_ne _ _ _ (by decide),
      dictGet_setField_ne _ _ _ (by decide), dictGet_setField_self]
  · rw [dictGet_setField_ne _ _ _ (by decide), dictGet_setField_self]
  · rw [dictGet_setField_self]
  · intro k hk1 hk2 hk3
    rw [dictGet_setField_ne _ _ _ hk3, dictGet_setField_ne _ _ _ hk2,
      dictGet_setField_ne _ _ _ hk1]

/-- Witness for C9 on `sceneB` expanded 1×1 → 2×2. -/
theorem C9_success_frame_witness :
    ∃ tms j entF r tiles nt entF2,
      tilemapsOf sceneB = some tms ∧
      find315 tms = some (some (j, .obj entF)) ∧
      tms.get? j = some (.list (.num 315 :: .obj entF :: r)) ∧
      (dictGet entF "tiles").getD (.list []) = .list tiles ∧
      buildNewTiles tiles 1 1 2 2 = some nt ∧
      entF2 = setField (setField (setField entF "tiles" (.list nt)) "width"
        (.num 2)) "height" (.num 2) ∧
      (∀ k, k ≠ "tilemaps" → dictGet sceneBexpanded k = dictGet sceneB k) ∧
      dictGet sceneBexpanded "tilemaps"
        = some (.list (tms.set j (.list (.num 315 :: .obj entF2 :: r)))) ∧
      (∀ i, i ≠ j →
        (tms.set j (.list (.num 315 :: .obj entF2 :: r))).get? i
          = tms.get? i) ∧
      dictGet entF2 "tiles" = some (.list nt) ∧
      dictGet entF2 "width" = some (.num 2) ∧
      dictGet entF2 "height" = some (.num 2) ∧
      (∀ k, k ≠ "tiles" → k ≠ "width" → k ≠ "height" →
        dictGet entF2 k = dictGet entF k) :=
  C9_success_frame sceneB sceneBexpanded 1 1 2 2 (by decide)
